import Mathlib

/-!
Shallow embedding of the spl-token-study codec layer.

Byte buffers are modelled as lists of natural numbers (each entry a byte
value below 256 for well-formed data).  Rust functions returning
Result become Except-valued Lean functions; functions that can panic
(out-of-bounds slice indexing through the arrayref macros) return an
Option layer where none models the panic.

The source files embedded here are src/src/instruction.rs and
src/src/state.rs.  The source is a hand-written port with a number of
plain transcription typos that do not change the evident meaning
(buff for buf, unpack_b4 and unpack_amount for unpack_64, u64_BYTES
for U64_BYTES, a call site spelling pack_pubkey_option for the defined
pack_pubkey_optioin, the method name pack_pack_into_slice);
those are embedded as the intended identifier.  Semantic divergences
(the 8/4 big-endian split in unpack_coption_u64, the self-recursive
is_native method, the panicking short-buffer behaviour of
unpack_from_slice) are embedded exactly as written.

Identifier note: the Rust field and enum names built on the word
initialized are shortened here (is_init, AccountState.uninit,
AccountState.inited, constructor names initMint and similar), with no
change of meaning.
-/

instance instDecEqExcept {ε α : Type} [DecidableEq ε] [DecidableEq α] :
    DecidableEq (Except ε α) := fun a b =>
  match a, b with
  | .ok x, .ok y =>
    if h : x = y then .isTrue (by rw [h]) else .isFalse (by intro hc; cases hc; exact h rfl)
  | .error x, .error y =>
    if h : x = y then .isTrue (by rw [h]) else .isFalse (by intro hc; cases hc; exact h rfl)
  | .ok _, .error _ => .isFalse (by intro hc; cases hc)
  | .error _, .ok _ => .isFalse (by intro hc; cases hc)

/-- Tests whether an Except value is in the error branch. -/
def exceptIsError {ε α : Type} : Except ε α → Bool
  | .error _ => true
  | .ok _ => false

/-- Error type covering the ProgramError values produced by the embedded
code.  TokenError.InvalidInstruction converts into a ProgramError in the
source; it is represented here directly as the invalidInstruction case. -/
inductive ProgramError : Type
  | invalidInstruction
  | invalidAccountData
  | invalidArgument
  | missingRequiredSignature
  | incorrectProgramId
deriving DecidableEq

/-- Public keys are 32-byte values in the source; modelled as byte lists
(well-formed ones have length 32 and entries below 256). -/
abbrev Pubkey : Type := List Nat

/-- Returns whether a byte list is a well-formed 32-byte public key. -/
def pubkeyWf (k : Pubkey) : Bool := k.length == 32 && k.all (· < 256)

/-- Number of bytes in a u64, the U64_BYTES constant of the source. -/
def U64_BYTES : Nat := 8

/-- Little-endian byte encoding of a natural number on k bytes, the model
of the Rust to_le_bytes with k = 8. -/
def natToLeBytes : Nat → Nat → List Nat
  | 0, _ => []
  | k + 1, n => n % 256 :: natToLeBytes k (n / 256)

/-- Little-endian byte decoding, the model of the Rust from_le_bytes. -/
def natFromLeBytes : List Nat → Nat
  | [] => 0
  | b :: bs => b + 256 * natFromLeBytes bs

/-- Big-endian byte decoding, the model of the Rust from_be_bytes. -/
def natFromBeBytes (l : List Nat) : Nat := l.foldl (fun acc b => acc * 256 + b) 0

/-- AuthorityType from src/src/instruction.rs lines 387 to 396. -/
inductive AuthorityType : Type
  | mintTokens
  | freezeAccount
  | accountOwner
  | closeAccount
deriving DecidableEq

/-- AuthorityType.into from src/src/instruction.rs lines 399 to 406. -/
def AuthorityType.into : AuthorityType → Nat
  | .mintTokens => 0
  | .freezeAccount => 1
  | .accountOwner => 2
  | .closeAccount => 3

/-- AuthorityType.from from src/src/instruction.rs lines 408 to 416
(from is a reserved word in Lean, hence the name fromByte). -/
def AuthorityType.fromByte : Nat → Except ProgramError AuthorityType
  | 0 => .ok .mintTokens
  | 1 => .ok .freezeAccount
  | 2 => .ok .accountOwner
  | 3 => .ok .closeAccount
  | _ => .error .invalidArgument

/-- Continuation byte test for UTF-8 (second and later bytes of a
multi-byte sequence lie in 0x80 to 0xBF). -/
def isCont (b : Nat) : Bool := 0x80 ≤ b && b ≤ 0xBF

/-- UTF-8 validity of a byte list, the check performed by the Rust
std function str::from_utf8 (RFC 3629: no overlong forms, no surrogate
code points, maximum code point 0x10FFFF). -/
def isValidUtf8 : List Nat → Bool
  | [] => true
  | b :: rest =>
    if b ≤ 0x7F then isValidUtf8 rest
    else if 0xC2 ≤ b && b ≤ 0xDF then
      match rest with
      | c1 :: rest1 => isCont c1 && isValidUtf8 rest1
      | [] => false
    else if 0xE0 ≤ b && b ≤ 0xEF then
      match rest with
      | c1 :: c2 :: rest2 =>
        (if b = 0xE0 then decide (0xA0 ≤ c1) && decide (c1 ≤ 0xBF)
         else if b = 0xED then decide (0x80 ≤ c1) && decide (c1 ≤ 0x9F)
         else isCont c1) && isCont c2 && isValidUtf8 rest2
      | _ => false
    else if 0xF0 ≤ b && b ≤ 0xF4 then
      match rest with
      | c1 :: c2 :: c3 :: rest3 =>
        (if b = 0xF0 then decide (0x90 ≤ c1) && decide (c1 ≤ 0xBF)
         else if b = 0xF4 then decide (0x80 ≤ c1) && decide (c1 ≤ 0x8F)
         else isCont c1) && isCont c2 && isCont c3 && isValidUtf8 rest3
      | _ => false
    else false

/-- TokenInstruction from src/src/instruction.rs lines 1 to 98.  The 25
variants keep the source field layout; the borrowed string of
UiAmountToAmount is modelled as its UTF-8 byte list (validity is part of
the well-formedness predicate below, mirroring the Rust str guarantee).
Constructor names shorten Initialize to init as explained above. -/
inductive TokenInstruction : Type
  | initMint (decimals : Nat) (mint_authority : Pubkey) (freeze_authority : Option Pubkey)
  | initAccount
  | initMultisig (m : Nat)
  | transfer (amount : Nat)
  | approve (amount : Nat)
  | revoke
  | setAuthority (authority_type : AuthorityType) (new_authority : Option Pubkey)
  | mintTo (amount : Nat)
  | burn (amount : Nat)
  | closeAccount
  | freezeAccount
  | thawAccount
  | transferChecked (amount : Nat) (decimals : Nat)
  | approveChecked (amount : Nat) (decimals : Nat)
  | mintToChecked (amount : Nat) (decimals : Nat)
  | burnChecked (amount : Nat) (decimals : Nat)
  | initAccount2 (owner : Pubkey)
  | syncNative
  | initAccount3 (owner : Pubkey)
  | initMultisig2 (m : Nat)
  | initMint2 (decimals : Nat) (mint_authority : Pubkey) (freeze_authority : Option Pubkey)
  | getAccountDataSize
  | initImmutableOwner
  | amountToUiAmount (amount : Nat)
  | uiAmountToAmount (ui_amount : List Nat)
deriving DecidableEq

/-- Well-formedness of an in-memory instruction value: every field holds
a value representable at its Rust type (u8 below 256, u64 below 2^64,
keys of 32 bytes, the string field valid UTF-8).  This captures exactly
the values constructible in the Rust program. -/
def TokenInstruction.wf : TokenInstruction → Bool
  | .initMint d ma fa =>
      d < 256 && pubkeyWf ma && (match fa with | some k => pubkeyWf k | none => true)
  | .initAccount => true
  | .initMultisig m => m < 256
  | .transfer a => a < 2 ^ 64
  | .approve a => a < 2 ^ 64
  | .revoke => true
  | .setAuthority _ na => (match na with | some k => pubkeyWf k | none => true)
  | .mintTo a => a < 2 ^ 64
  | .burn a => a < 2 ^ 64
  | .closeAccount => true
  | .freezeAccount => true
  | .thawAccount => true
  | .transferChecked a d => a < 2 ^ 64 && d < 256
  | .approveChecked a d => a < 2 ^ 64 && d < 256
  | .mintToChecked a d => a < 2 ^ 64 && d < 256
  | .burnChecked a d => a < 2 ^ 64 && d < 256
  | .initAccount2 o => pubkeyWf o
  | .syncNative => true
  | .initAccount3 o => pubkeyWf o
  | .initMultisig2 m => m < 256
  | .initMint2 d ma fa =>
      d < 256 && pubkeyWf ma && (match fa with | some k => pubkeyWf k | none => true)
  | .getAccountDataSize => true
  | .initImmutableOwner => true
  | .amountToUiAmount a => a < 2 ^ 64
  | .uiAmountToAmount s => isValidUtf8 s

/-- Tests whether an instruction is the UiAmountToAmount variant (the
one variant whose decoder consumes the whole remaining buffer). -/
def TokenInstruction.isUiAmountToAmount : TokenInstruction → Bool
  | .uiAmountToAmount _ => true
  | _ => false

/-- TokenInstruction::unpack_pubkey from src/src/instruction.rs lines
325 to 336: the first 32 bytes are the key, the remainder is returned.
The call Pubkey::new_from there is the infallible 32-byte array
conversion. -/
def unpack_pubkey (input : List Nat) : Except ProgramError (Pubkey × List Nat) :=
  if 32 ≤ input.length then .ok (input.take 32, input.drop 32)
  else .error .invalidInstruction

/-- TokenInstruction::unpack_pubkey_option from src/src/instruction.rs
lines 338 to 351: a single presence byte, 0 for absent, 1 followed by at
least 32 bytes for present; anything else is an error. -/
def unpack_pubkey_option (input : List Nat) :
    Except ProgramError (Option Pubkey × List Nat) :=
  match input with
  | 0 :: rest => .ok (none, rest)
  | 1 :: rest =>
    if 32 ≤ rest.length then .ok (some (rest.take 32), rest.drop 32)
    else .error .invalidInstruction
  | _ => .error .invalidInstruction

/-- TokenInstruction::unpack_64 from src/src/instruction.rs lines 363 to
377: reads the first 8 bytes as a little-endian u64 and returns the
remainder of the input. -/
def unpack_64 (input : List Nat) : Except ProgramError (Nat × List Nat) :=
  if U64_BYTES ≤ input.length then
    .ok (natFromLeBytes (input.take U64_BYTES), input.drop U64_BYTES)
  else .error .invalidInstruction

/-- TokenInstruction::unpack_amount_decimals from src/src/instruction.rs
lines 379 to 383 (its callee spelled unpack_b4 in the source is the
unpack_64 helper). -/
def unpack_amount_decimals (input : List Nat) :
    Except ProgramError (Nat × Nat × List Nat) := do
  let (amount, rest) ← unpack_64 input
  match rest with
  | [] => .error .invalidInstruction
  | decimals :: rest2 => .ok (amount, decimals, rest2)

/-- TokenInstruction::unpack from src/src/instruction.rs lines 102 to
215: strips the leading tag byte and decodes the remainder according to
the tag; tags 25 and above (the wildcard arm) are errors.  The grouped
source arm for tags 3, 4, 7 and 8 is expanded per tag with the identical
amount extraction. -/
def TokenInstruction.unpack (input : List Nat) : Except ProgramError TokenInstruction :=
  match input with
  | [] => .error .invalidInstruction
  | tag :: rest =>
    match tag with
    | 0 =>
      match rest with
      | [] => .error .invalidInstruction
      | decimals :: r1 => do
        let (mint_authority, r2) ← unpack_pubkey r1
        let (freeze_authority, _r3) ← unpack_pubkey_option r2
        pure (.initMint decimals mint_authority freeze_authority)
    | 1 => .ok .initAccount
    | 2 =>
      match rest with
      | [] => .error .invalidInstruction
      | m :: _ => .ok (.initMultisig m)
    | 3 => do
      let (amount, _r) ← unpack_64 rest
      pure (.transfer amount)
    | 4 => do
      let (amount, _r) ← unpack_64 rest
      pure (.approve amount)
    | 5 => .ok .revoke
    | 6 =>
      match rest with
      | [] => .error .invalidInstruction
      | t :: r1 => do
        let authority_type ← AuthorityType.fromByte t
        let (new_authority, _r2) ← unpack_pubkey_option r1
        pure (.setAuthority authority_type new_authority)
    | 7 => do
      let (amount, _r) ← unpack_64 rest
      pure (.mintTo amount)
    | 8 => do
      let (amount, _r) ← unpack_64 rest
      pure (.burn amount)
    | 9 => .ok .closeAccount
    | 10 => .ok .freezeAccount
    | 11 => .ok .thawAccount
    | 12 => do
      let (amount, decimals, _r) ← unpack_amount_decimals rest
      pure (.transferChecked amount decimals)
    | 13 => do
      let (amount, decimals, _r) ← unpack_amount_decimals rest
      pure (.approveChecked amount decimals)
    | 14 => do
      let (amount, decimals, _r) ← unpack_amount_decimals rest
      pure (.mintToChecked amount decimals)
    | 15 => do
      let (amount, decimals, _r) ← unpack_amount_decimals rest
      pure (.burnChecked amount decimals)
    | 16 => do
      let (owner, _r) ← unpack_pubkey rest
      pure (.initAccount2 owner)
    | 17 => .ok .syncNative
    | 18 => do
      let (owner, _r) ← unpack_pubkey rest
      pure (.initAccount3 owner)
    | 19 =>
      match rest with
      | [] => .error .invalidInstruction
      | m :: _ => .ok (.initMultisig2 m)
    | 20 =>
      match rest with
      | [] => .error .invalidInstruction
      | decimals :: r1 => do
        let (mint_authority, r2) ← unpack_pubkey r1
        let (freeze_authority, _r3) ← unpack_pubkey_option r2
        pure (.initMint2 decimals mint_authority freeze_authority)
    | 21 => .ok .getAccountDataSize
    | 22 => .ok .initImmutableOwner
    | 23 => do
      let (amount, _r) ← unpack_64 rest
      pure (.amountToUiAmount amount)
    | 24 =>
      if isValidUtf8 rest then .ok (.uiAmountToAmount rest)
      else .error .invalidInstruction
    | _ => .error .invalidInstruction

/-- TokenInstruction::pack_pubkey_optioin from src/src/instruction.rs
lines 353 to 361 (source spelling kept): pushes a single presence byte,
then the 32 key bytes only when the key is present.  The buffer being
extended is passed and returned explicitly. -/
def pack_pubkey_optioin (value : Option Pubkey) (buf : List Nat) : List Nat :=
  match value with
  | some key => buf ++ 1 :: key
  | none => buf ++ [0]

/-- TokenInstruction::pack from src/src/instruction.rs lines 218 to 322:
tag byte followed by the variant payload, integers little-endian. -/
def TokenInstruction.pack : TokenInstruction → List Nat
  | .initMint decimals mint_authority freeze_authority =>
      pack_pubkey_optioin freeze_authority (0 :: decimals :: mint_authority)
  | .initAccount => [1]
  | .initMultisig m => [2, m]
  | .transfer amount => 3 :: natToLeBytes 8 amount
  | .approve amount => 4 :: natToLeBytes 8 amount
  | .mintTo amount => 7 :: natToLeBytes 8 amount
  | .burn amount => 8 :: natToLeBytes 8 amount
  | .revoke => [5]
  | .setAuthority authority_type new_authority =>
      pack_pubkey_optioin new_authority [6, authority_type.into]
  | .closeAccount => [9]
  | .freezeAccount => [10]
  | .thawAccount => [11]
  | .transferChecked amount decimals => 12 :: (natToLeBytes 8 amount ++ [decimals])
  | .approveChecked amount decimals => 13 :: (natToLeBytes 8 amount ++ [decimals])
  | .mintToChecked amount decimals => 14 :: (natToLeBytes 8 amount ++ [decimals])
  | .burnChecked amount decimals => 15 :: (natToLeBytes 8 amount ++ [decimals])
  | .initAccount2 owner => 16 :: owner
  | .syncNative => [17]
  | .initAccount3 owner => 18 :: owner
  | .initMultisig2 m => [19, m]
  | .initMint2 decimals mint_authority freeze_authority =>
      pack_pubkey_optioin freeze_authority (20 :: decimals :: mint_authority)
  | .getAccountDataSize => [21]
  | .initImmutableOwner => [22]
  | .amountToUiAmount amount => 23 :: natToLeBytes 8 amount
  | .uiAmountToAmount ui_amount => 24 :: ui_amount

/-- AccountState from src/src/state.rs lines 217 to 227 (the source
names Uninitialized and Initialized are shortened to uninit and
inited). -/
inductive AccountState : Type
  | uninit
  | inited
  | frozen
deriving DecidableEq

/-- Discriminant of an AccountState, the Rust cast state as u8. -/
def AccountState.toByte : AccountState → Nat
  | .uninit => 0
  | .inited => 1
  | .frozen => 2

/-- AccountState::try_from_primitive as used at src/src/state.rs lines
173 to 174: bytes 0, 1 and 2 map to the three states; anything else is
an InvalidAccountData error. -/
def AccountState.try_from_primitive : Nat → Except ProgramError AccountState
  | 0 => .ok .uninit
  | 1 => .ok .inited
  | 2 => .ok .frozen
  | _ => .error .invalidAccountData

/-- Mint from src/src/state.rs lines 11 to 22 (field is_initialized
shortened to is_init). -/
structure Mint : Type where
  mint_authority : Option Pubkey
  supply : Nat
  decimals : Nat
  is_init : Bool
  freeze_authority : Option Pubkey
deriving DecidableEq

/-- Well-formedness of an in-memory Mint value at its Rust types. -/
def Mint.wf (m : Mint) : Bool :=
  (match m.mint_authority with | some k => pubkeyWf k | none => true)
  && m.supply < 2 ^ 64 && m.decimals < 256
  && (match m.freeze_authority with | some k => pubkeyWf k | none => true)

/-- Account from src/src/state.rs lines 120 to 137. -/
structure Account : Type where
  mint : Pubkey
  owner : Pubkey
  amount : Nat
  delegate : Option Pubkey
  state : AccountState
  is_native : Option Nat
  delegated_amount : Nat
  close_authority : Option Pubkey
deriving DecidableEq

/-- Account::is_frozen from src/src/state.rs lines 141 to 143. -/
def Account.is_frozen (a : Account) : Bool := a.state == AccountState.frozen

/-- Account::is_native from src/src/state.rs lines 146 to 148.  The
source body is self.is_native().is_some(): the parenthesised call names
the method itself, not the is_native field, so the method recurses on
itself unconditionally and never returns (it also fails to type-check,
since is_some is applied to the bool result).  The recursion is modelled
with an explicit fuel argument: none models a computation that has not
produced a value within the given recursion budget. -/
def Account.is_native_fuel (a : Account) : Nat → Option Bool
  | 0 => none
  | fuel + 1 => a.is_native_fuel fuel

/-- Pack helper pack_coption_key from src/src/state.rs lines 243 to 262:
writes a 4-byte little-endian presence tag into the 36-byte region; when
the key is present the 32 body bytes are overwritten with it, when
absent the body bytes keep the previous content of the region (the
source writes only the tag in the None arm).  The argument dst is the
previous content of the 36-byte region. -/
def pack_coption_key (src : Option Pubkey) (dst : List Nat) : List Nat :=
  match src with
  | some key => [1, 0, 0, 0] ++ key
  | none => [0, 0, 0, 0] ++ dst.drop 4

/-- Unpack helper unpack_coption_key from src/src/state.rs lines 265 to
274: the first 4 bytes of the 36-byte region are the presence tag, the
remaining 32 the key body.  Callers always pass a region of exactly 36
bytes. -/
def unpack_coption_key (src : List Nat) : Except ProgramError (Option Pubkey) :=
  match src.take 4 with
  | [0, 0, 0, 0] => .ok none
  | [1, 0, 0, 0] => .ok (some ((src.drop 4).take 32))
  | _ => .error .invalidAccountData

/-- Pack helper pack_coption_u64 from src/src/state.rs lines 277 to 288:
writes a 4-byte little-endian presence tag into the 12-byte region,
followed by the 8 little-endian amount bytes when present; when absent
the body bytes keep the previous content of the region. -/
def pack_coption_u64 (src : Option Nat) (dst : List Nat) : List Nat :=
  match src with
  | some amount => [1, 0, 0, 0] ++ natToLeBytes 8 amount
  | none => [0, 0, 0, 0] ++ dst.drop 4

/-- Unpack helper unpack_coption_u64 from src/src/state.rs lines 291 to
298, embedded exactly as written: the source splits the 12-byte region
as array_refs with widths 8 and 4, so the tag is the 8-byte prefix and
the body the 4-byte suffix, and the body is read with from_be_bytes
(big-endian).  The 4-element tag patterns are compared against the
8-byte tag; as written in Rust that comparison is a type error, and as a
value-level comparison it can never succeed, so every input reaches the
error arm. -/
def unpack_coption_u64 (src : List Nat) : Except ProgramError (Option Nat) :=
  let tag := src.take 8
  let body := (src.drop 8).take 4
  if tag = [0, 0, 0, 0] then .ok none
  else if tag = [1, 0, 0, 0] then .ok (some (natFromBeBytes body))
  else .error .invalidAccountData

/-- Mint::unpack_from_slice from src/src/state.rs lines 34 to 79.  The
leading array_ref of 82 bytes panics when the input is shorter, which
the Option layer models as none; otherwise the first 82 bytes are split
at widths 36, 8, 1, 1, 36 and each field is decoded in source order. -/
def Mint.unpack_from_slice (src : List Nat) : Option (Except ProgramError Mint) :=
  if src.length < 82 then none
  else
    let s := src.take 82
    some (do
      let mint_authority ← unpack_coption_key (s.take 36)
      let supply := natFromLeBytes ((s.drop 36).take 8)
      let decimals := ((s.drop 44).take 1).headD 0
      let is_init ← (match (s.drop 45).take 1 with
        | [0] => Except.ok false
        | [1] => Except.ok true
        | _ => Except.error ProgramError.invalidAccountData)
      let freeze_authority ← unpack_coption_key ((s.drop 46).take 36)
      pure { mint_authority, supply, decimals, is_init, freeze_authority })

/-- Mint::pack_into_slice from src/src/state.rs lines 82 to 116.  The
leading array_mut_ref of 82 bytes panics when dst is shorter, modelled
as none; otherwise the five regions of the first 82 bytes are
overwritten in place (optional-key bodies keep the old region content
when absent) and any bytes of dst beyond 82 are untouched. -/
def Mint.pack_into_slice (m : Mint) (dst : List Nat) : Option (List Nat) :=
  if dst.length < 82 then none
  else
    some (pack_coption_key m.mint_authority (dst.take 36)
      ++ natToLeBytes 8 m.supply
      ++ [m.decimals]
      ++ [if m.is_init then 1 else 0]
      ++ pack_coption_key m.freeze_authority ((dst.drop 46).take 36)
      ++ dst.drop 82)

/-- Account::unpack_from_slice from src/src/state.rs lines 163 to 179.
The leading array_ref of 165 bytes panics when the input is shorter,
modelled as none; otherwise the first 165 bytes are split at widths 32,
32, 8, 36, 1, 12, 8, 36 and the fields are decoded in the order of the
source struct literal. -/
def Account.unpack_from_slice (src : List Nat) : Option (Except ProgramError Account) :=
  if src.length < 165 then none
  else
    let s := src.take 165
    some (do
      let delegate ← unpack_coption_key ((s.drop 72).take 36)
      let state ← AccountState.try_from_primitive (((s.drop 108).take 1).headD 0)
      let is_native ← unpack_coption_u64 ((s.drop 109).take 12)
      let close_authority ← unpack_coption_key ((s.drop 129).take 36)
      pure { mint := s.take 32
             owner := (s.drop 32).take 32
             amount := natFromLeBytes ((s.drop 64).take 8)
             delegate, state, is_native
             delegated_amount := natFromLeBytes ((s.drop 121).take 8)
             close_authority })

/-- Account method pack_pack_into_slice from src/src/state.rs lines 182
to 214 (source spelling of the name kept).  The leading array_mut_ref of
165 bytes panics when dst is shorter, modelled as none; otherwise the
eight regions of the first 165 bytes are overwritten in place
(optional-value bodies keep the old region content when absent) and any
bytes of dst beyond 165 are untouched. -/
def Account.pack_pack_into_slice (a : Account) (dst : List Nat) : Option (List Nat) :=
  if dst.length < 165 then none
  else
    some (a.mint
      ++ a.owner
      ++ natToLeBytes 8 a.amount
      ++ pack_coption_key a.delegate ((dst.drop 72).take 36)
      ++ [a.state.toByte]
      ++ pack_coption_u64 a.is_native ((dst.drop 109).take 12)
      ++ natToLeBytes 8 a.delegated_amount
      ++ pack_coption_key a.close_authority ((dst.drop 129).take 36)
      ++ dst.drop 165)

/-- Minimum number of multisignature signers.  Modelled from the spec:
the MIN_SIGNERS constant referenced by src/src/instruction.rs is
imported from the external spl-token crate and is not part of this
repository; section 6 of the spec gives the bounds 1..=11. -/
def MIN_SIGNERS : Nat := 1

/-- Maximum number of multisignature signers.  Modelled from the spec:
the MAX_SIGNERS constant referenced by src/src/instruction.rs is
imported from the external spl-token crate and is not part of this
repository; section 6 of the spec gives the bounds 1..=11. -/
def MAX_SIGNERS : Nat := 11

/-- Function is_valid_signer_index from src/src/instruction.rs lines
1102 to 1104: membership of the index in the inclusive range from
MIN_SIGNERS to MAX_SIGNERS. -/
def is_valid_signer_index (index : Nat) : Bool :=
  MIN_SIGNERS ≤ index && index ≤ MAX_SIGNERS

/-- Account metadata entry of a built instruction, the solana
AccountMeta value: AccountMeta::new sets writable true, new_readonly
sets it false, and the second Rust argument is the signer flag. -/
structure AccountMeta : Type where
  pubkey : Pubkey
  is_signer : Bool
  is_writable : Bool
deriving DecidableEq

/-- Built instruction value, the solana Instruction struct returned by
the builder functions. -/
structure Instruction : Type where
  program_id : Pubkey
  accounts : List AccountMeta
  data : List Nat
deriving DecidableEq

/-- Address of the SPL token program.  Modelled from the spec: the
concrete id lives in the external spl-token crate; only its role as the
unique accepted program id matters here, so an arbitrary fixed 32-byte
value represents it. -/
def TOKEN_PROGRAM_ID : Pubkey := List.replicate 32 5

/-- Address of the rent sysvar account, sysvar::rent::id() of the
external solana crate.  Modelled from the spec: an arbitrary fixed
32-byte value represents it. -/
def RENT_SYSVAR_ID : Pubkey := List.replicate 32 6

/-- Program id check called by every builder.  Modelled from the spec:
check_program_account comes from the external spl-token crate and
errors exactly when the supplied id is not the token program id. -/
def check_program_account (token_program_id : Pubkey) : Except ProgramError Unit :=
  if token_program_id = TOKEN_PROGRAM_ID then .ok () else .error .incorrectProgramId

/-- Builder initialize_multisig from src/src/instruction.rs lines 569
to 598 (name shortened to init_multisig, see the header note): after the
program id check it rejects a threshold m outside the valid signer
range, a signer list whose length is outside that range, or m larger
than the signer count, and otherwise assembles the instruction with the
packed InitializeMultisig data. -/
def init_multisig (token_program_id multisig_pubkey : Pubkey)
    (signer_pubkeys : List Pubkey) (m : Nat) : Except ProgramError Instruction := do
  check_program_account token_program_id
  if !is_valid_signer_index m
      || !is_valid_signer_index signer_pubkeys.length
      || m > signer_pubkeys.length then
    Except.error ProgramError.missingRequiredSignature
  else
    pure { program_id := token_program_id
           accounts :=
             ⟨multisig_pubkey, false, true⟩
               :: ⟨RENT_SYSVAR_ID, false, false⟩
               :: signer_pubkeys.map (fun k => ⟨k, false, false⟩)
           data := TokenInstruction.pack (.initMultisig m) }

theorem except_bind_ok {ε α β : Type} (a : α) (f : α → Except ε β) :
    (Except.ok a >>= f : Except ε β) = f a := rfl

theorem except_bind_error {ε α β : Type} (e : ε) (f : α → Except ε β) :
    (Except.error e >>= f : Except ε β) = Except.error e := rfl

theorem natToLeBytes_length (k n : Nat) : (natToLeBytes k n).length = k := by
  induction k generalizing n with
  | zero => rfl
  | succ k ih => simp [natToLeBytes, ih]

theorem natFromLeBytes_natToLeBytes (k n : Nat) :
    natFromLeBytes (natToLeBytes k n) = n % 256 ^ k := by
  induction k generalizing n with
  | zero => simp [natToLeBytes, natFromLeBytes, Nat.mod_one]
  | succ k ih =>
    simp only [natToLeBytes, natFromLeBytes, ih]
    rw [pow_succ', Nat.mod_mul]

theorem unpack_pubkey_append (k r : List Nat) (h : k.length = 32) :
    unpack_pubkey (k ++ r) = .ok (k, r) := by
  unfold unpack_pubkey
  rw [if_pos (by simp [List.length_append, h]), List.take_left' h, List.drop_left' h]

theorem unpack_pubkey_option_none (r : List Nat) :
    unpack_pubkey_option (0 :: r) = .ok (none, r) := rfl

theorem unpack_pubkey_option_some (k r : List Nat) (h : k.length = 32) :
    unpack_pubkey_option (1 :: (k ++ r)) = .ok (some k, r) := by
  simp only [unpack_pubkey_option]
  rw [if_pos (by simp [List.length_append, h]), List.take_left' h, List.drop_left' h]

theorem unpack_64_append (a : Nat) (r : List Nat) (h : a < 2 ^ 64) :
    unpack_64 (natToLeBytes 8 a ++ r) = .ok (a, r) := by
  unfold unpack_64 U64_BYTES
  rw [if_pos (by simp [List.length_append, natToLeBytes_length]),
    List.take_left' (natToLeBytes_length 8 a), List.drop_left' (natToLeBytes_length 8 a),
    natFromLeBytes_natToLeBytes, Nat.mod_eq_of_lt (by norm_num at h ⊢; omega)]

theorem unpack_amount_decimals_append (a d : Nat) (r : List Nat) (h : a < 2 ^ 64) :
    unpack_amount_decimals (natToLeBytes 8 a ++ (d :: r)) = .ok (a, d, r) := by
  unfold unpack_amount_decimals
  rw [unpack_64_append a (d :: r) h]
  rfl

theorem authorityType_fromByte_into (t : AuthorityType) :
    AuthorityType.fromByte t.into = .ok t := by
  cases t <;> rfl

theorem unpack_pack_extra (x : TokenInstruction) (extra : List Nat)
    (hwf : x.wf = true) (hni : x.isUiAmountToAmount = false) :
    TokenInstruction.unpack (x.pack ++ extra) = .ok x := by
  cases x with
  | initMint d ma fa =>
    simp only [TokenInstruction.wf, Bool.and_eq_true] at hwf
    obtain ⟨⟨_, hma⟩, hfa⟩ := hwf
    simp only [pubkeyWf, Bool.and_eq_true, beq_iff_eq] at hma
    cases fa with
    | none =>
      simp only [TokenInstruction.pack, pack_pubkey_optioin, List.cons_append,
        List.append_assoc, List.nil_append, TokenInstruction.unpack]
      rw [unpack_pubkey_append ma (0 :: extra) hma.1, except_bind_ok,
        unpack_pubkey_option_none, except_bind_ok]
      rfl
    | some k =>
      simp only [pubkeyWf, Bool.and_eq_true, beq_iff_eq] at hfa
      simp only [TokenInstruction.pack, pack_pubkey_optioin, List.cons_append,
        List.append_assoc, List.nil_append, TokenInstruction.unpack]
      rw [unpack_pubkey_append ma (1 :: (k ++ extra)) hma.1, except_bind_ok,
        unpack_pubkey_option_some k extra hfa.1, except_bind_ok]
      rfl
  | initAccount => rfl
  | initMultisig m => rfl
  | transfer a =>
    simp only [TokenInstruction.wf, decide_eq_true_eq] at hwf
    simp only [TokenInstruction.pack, List.cons_append, TokenInstruction.unpack]
    rw [unpack_64_append a extra hwf, except_bind_ok]
    rfl
  | approve a =>
    simp only [TokenInstruction.wf, decide_eq_true_eq] at hwf
    simp only [TokenInstruction.pack, List.cons_append, TokenInstruction.unpack]
    rw [unpack_64_append a extra hwf, except_bind_ok]
    rfl
  | revoke => rfl
  | setAuthority t na =>
    simp only [TokenInstruction.wf] at hwf
    cases na with
    | none =>
      simp only [TokenInstruction.pack, pack_pubkey_optioin, List.cons_append,
        List.append_assoc, List.nil_append, TokenInstruction.unpack]
      rw [authorityType_fromByte_into t, except_bind_ok, unpack_pubkey_option_none,
        except_bind_ok]
      rfl
    | some k =>
      simp only [pubkeyWf, Bool.and_eq_true, beq_iff_eq] at hwf
      simp only [TokenInstruction.pack, pack_pubkey_optioin, List.cons_append,
        List.append_assoc, List.nil_append, TokenInstruction.unpack]
      rw [authorityType_fromByte_into t, except_bind_ok,
        unpack_pubkey_option_some k extra hwf.1, except_bind_ok]
      rfl
  | mintTo a =>
    simp only [TokenInstruction.wf, decide_eq_true_eq] at hwf
    simp only [TokenInstruction.pack, List.cons_append, TokenInstruction.unpack]
    rw [unpack_64_append a extra hwf, except_bind_ok]
    rfl
  | burn a =>
    simp only [TokenInstruction.wf, decide_eq_true_eq] at hwf
    simp only [TokenInstruction.pack, List.cons_append, TokenInstruction.unpack]
    rw [unpack_64_append a extra hwf, except_bind_ok]
    rfl
  | closeAccount => rfl
  | freezeAccount => rfl
  | thawAccount => rfl
  | transferChecked a d =>
    simp only [TokenInstruction.wf, Bool.and_eq_true, decide_eq_true_eq] at hwf
    simp only [TokenInstruction.pack, List.cons_append, List.append_assoc,
      List.cons_append, List.nil_append, TokenInstruction.unpack]
    rw [unpack_amount_decimals_append a d extra hwf.1, except_bind_ok]
    rfl
  | approveChecked a d =>
    simp only [TokenInstruction.wf, Bool.and_eq_true, decide_eq_true_eq] at hwf
    simp only [TokenInstruction.pack, List.cons_append, List.append_assoc,
      List.cons_append, List.nil_append, TokenInstruction.unpack]
    rw [unpack_amount_decimals_append a d extra hwf.1, except_bind_ok]
    rfl
  | mintToChecked a d =>
    simp only [TokenInstruction.wf, Bool.and_eq_true, decide_eq_true_eq] at hwf
    simp only [TokenInstruction.pack, List.cons_append, List.append_assoc,
      List.cons_append, List.nil_append, TokenInstruction.unpack]
    rw [unpack_amount_decimals_append a d extra hwf.1, except_bind_ok]
    rfl
  | burnChecked a d =>
    simp only [TokenInstruction.wf, Bool.and_eq_true, decide_eq_true_eq] at hwf
    simp only [TokenInstruction.pack, List.cons_append, List.append_assoc,
      List.cons_append, List.nil_append, TokenInstruction.unpack]
    rw [unpack_amount_decimals_append a d extra hwf.1, except_bind_ok]
    rfl
  | initAccount2 o =>
    simp only [TokenInstruction.wf, pubkeyWf, Bool.and_eq_true, beq_iff_eq] at hwf
    simp only [TokenInstruction.pack, List.cons_append, TokenInstruction.unpack]
    rw [unpack_pubkey_append o extra hwf.1, except_bind_ok]
    rfl
  | syncNative => rfl
  | initAccount3 o =>
    simp only [TokenInstruction.wf, pubkeyWf, Bool.and_eq_true, beq_iff_eq] at hwf
    simp only [TokenInstruction.pack, List.cons_append, TokenInstruction.unpack]
    rw [unpack_pubkey_append o extra hwf.1, except_bind_ok]
    rfl
  | initMultisig2 m => rfl
  | initMint2 d ma fa =>
    simp only [TokenInstruction.wf, Bool.and_eq_true] at hwf
    obtain ⟨⟨_, hma⟩, hfa⟩ := hwf
    simp only [pubkeyWf, Bool.and_eq_true, beq_iff_eq] at hma
    cases fa with
    | none =>
      simp only [TokenInstruction.pack, pack_pubkey_optioin, List.cons_append,
        List.append_assoc, List.nil_append, TokenInstruction.unpack]
      rw [unpack_pubkey_append ma (0 :: extra) hma.1, except_bind_ok,
        unpack_pubkey_option_none, except_bind_ok]
      rfl
    | some k =>
      simp only [pubkeyWf, Bool.and_eq_true, beq_iff_eq] at hfa
      simp only [TokenInstruction.pack, pack_pubkey_optioin, List.cons_append,
        List.append_assoc, List.nil_append, TokenInstruction.unpack]
      rw [unpack_pubkey_append ma (1 :: (k ++ extra)) hma.1, except_bind_ok,
        unpack_pubkey_option_some k extra hfa.1, except_bind_ok]
      rfl
  | getAccountDataSize => rfl
  | initImmutableOwner => rfl
  | amountToUiAmount a =>
    simp only [TokenInstruction.wf, decide_eq_true_eq] at hwf
    simp only [TokenInstruction.pack, List.cons_append, TokenInstruction.unpack]
    rw [unpack_64_append a extra hwf, except_bind_ok]
    rfl
  | uiAmountToAmount s => simp [TokenInstruction.isUiAmountToAmount] at hni

/-- C1: for every constructible instruction value (every well-formed
value of any of the 25 variants), decoding the bytes produced by
encoding it yields the value back: unpack (pack x) = ok x. -/
theorem c1_unpack_pack_roundtrip (x : TokenInstruction) (hwf : x.wf = true) :
    TokenInstruction.unpack (TokenInstruction.pack x) = .ok x := by
  cases x with
  | uiAmountToAmount s =>
    simp only [TokenInstruction.wf] at hwf
    simp [TokenInstruction.pack, TokenInstruction.unpack, hwf]
  | initMint d ma fa => simpa using unpack_pack_extra _ [] hwf rfl
  | initAccount => simpa using unpack_pack_extra _ [] hwf rfl
  | initMultisig m => simpa using unpack_pack_extra _ [] hwf rfl
  | transfer a => simpa using unpack_pack_extra _ [] hwf rfl
  | approve a => simpa using unpack_pack_extra _ [] hwf rfl
  | revoke => simpa using unpack_pack_extra _ [] hwf rfl
  | setAuthority t na => simpa using unpack_pack_extra _ [] hwf rfl
  | mintTo a => simpa using unpack_pack_extra _ [] hwf rfl
  | burn a => simpa using unpack_pack_extra _ [] hwf rfl
  | closeAccount => simpa using unpack_pack_extra _ [] hwf rfl
  | freezeAccount => simpa using unpack_pack_extra _ [] hwf rfl
  | thawAccount => simpa using unpack_pack_extra _ [] hwf rfl
  | transferChecked a d => simpa using unpack_pack_extra _ [] hwf rfl
  | approveChecked a d => simpa using unpack_pack_extra _ [] hwf rfl
  | mintToChecked a d => simpa using unpack_pack_extra _ [] hwf rfl
  | burnChecked a d => simpa using unpack_pack_extra _ [] hwf rfl
  | initAccount2 o => simpa using unpack_pack_extra _ [] hwf rfl
  | syncNative => simpa using unpack_pack_extra _ [] hwf rfl
  | initAccount3 o => simpa using unpack_pack_extra _ [] hwf rfl
  | initMultisig2 m => simpa using unpack_pack_extra _ [] hwf rfl
  | initMint2 d ma fa => simpa using unpack_pack_extra _ [] hwf rfl
  | getAccountDataSize => simpa using unpack_pack_extra _ [] hwf rfl
  | initImmutableOwner => simpa using unpack_pack_extra _ [] hwf rfl
  | amountToUiAmount a => simpa using unpack_pack_extra _ [] hwf rfl

/-- Witness for C1 at a concrete InitializeMint value with a present
freeze authority. -/
theorem c1_unpack_pack_roundtrip_witness :
    TokenInstruction.unpack (TokenInstruction.pack
        (.initMint 9 (List.replicate 32 7) (some (List.replicate 32 8)))) =
      .ok (.initMint 9 (List.replicate 32 7) (some (List.replicate 32 8))) :=
  c1_unpack_pack_roundtrip _ (by decide)

/-- C7: for every well-formed instruction other than UiAmountToAmount
and every list of trailing bytes, decoding the encoding followed by the
trailing bytes still succeeds and yields the same instruction: the
decoder ignores everything beyond the fields it needs. -/
theorem c7_trailing_bytes_ignored (x : TokenInstruction) (extra : List Nat)
    (hwf : x.wf = true) (hni : x.isUiAmountToAmount = false) :
    TokenInstruction.unpack (x.pack ++ extra) = .ok x :=
  unpack_pack_extra x extra hwf hni

/-- Witness for C7: a Transfer encoding followed by two junk bytes still
decodes to the same Transfer. -/
theorem c7_trailing_bytes_ignored_witness :
    TokenInstruction.unpack (TokenInstruction.pack (.transfer 5) ++ [99, 100]) =
      .ok (.transfer 5) :=
  c7_trailing_bytes_ignored _ [99, 100] (by decide) rfl

/-- C6: decoding the empty buffer errors; decoding a lone tag byte
errors for every tag whose variant requires payload bytes (tags 0, 2, 3,
4, 6, 7, 8, 12 to 16, 18, 19, 20, 23); and decoding any buffer whose
first byte is 25 or greater errors.  The source collapses all these
error kinds into the single TokenError::InvalidInstruction value. -/
theorem c6_malformed_and_unknown_tags_error :
    TokenInstruction.unpack [] = .error .invalidInstruction
    ∧ (∀ t ∈ ([0, 2, 3, 4, 6, 7, 8, 12, 13, 14, 15, 16, 18, 19, 20, 23] : List Nat),
        TokenInstruction.unpack [t] = .error .invalidInstruction)
    ∧ (∀ (t : Nat) (rest : List Nat), 25 ≤ t →
        TokenInstruction.unpack (t :: rest) = .error .invalidInstruction) := by
  refine ⟨rfl, by decide, ?_⟩
  intro t rest h
  obtain ⟨k, rfl⟩ : ∃ k, t = k + 25 := ⟨t - 25, by omega⟩
  rfl

/-- Witness for C6 at tag 3 (truncated payload) and tag 25 (unknown
discriminant). -/
theorem c6_malformed_and_unknown_tags_error_witness :
    TokenInstruction.unpack [3] = .error .invalidInstruction
    ∧ TokenInstruction.unpack [25] = .error .invalidInstruction :=
  ⟨c6_malformed_and_unknown_tags_error.2.1 3 (by decide),
   c6_malformed_and_unknown_tags_error.2.2 25 [] (by decide)⟩

/-- C10: encoding UiAmountToAmount with the text 1.25 yields exactly the
five bytes 24, 49, 46, 50, 53 (tag then the UTF-8 bytes, no length
prefix), and decoding any buffer whose first byte is 24 and whose
remainder is not valid UTF-8 errors (the InvalidText kind is the
TokenError::InvalidInstruction value in the source). -/
theorem c10_ui_amount_text_codec :
    TokenInstruction.pack (.uiAmountToAmount [49, 46, 50, 53]) = [24, 49, 46, 50, 53]
    ∧ (∀ rest : List Nat, isValidUtf8 rest = false →
        TokenInstruction.unpack (24 :: rest) = .error .invalidInstruction) := by
  refine ⟨rfl, ?_⟩
  intro rest h
  simp [TokenInstruction.unpack, h]

/-- Witness for C10 at the invalid byte 255 after tag 24. -/
theorem c10_ui_amount_text_codec_witness :
    TokenInstruction.unpack [24, 255] = .error .invalidInstruction :=
  c10_ui_amount_text_codec.2 [255] (by decide)

/-- C2 counterexample: encoding SetAuthority with an absent new
authority produces the three bytes 6, 0, 0 (tag, authority-type byte,
single presence byte) and not a fixed 38-byte buffer, so the optional
public key in the instruction encoding does not occupy a fixed 36 bytes
with a 4-byte little-endian presence tag. -/
theorem c2_optional_key_fixed_width_counterexample :
    TokenInstruction.pack (.setAuthority .mintTokens none) = [6, 0, 0]
    ∧ (TokenInstruction.pack (.setAuthority .mintTokens none)).length = 3 := by
  exact ⟨rfl, rfl⟩

/-- C2 amended: in the instruction encoding, every optional public key
(the freeze authority of InitializeMint and InitializeMint2 and the new
authority of SetAuthority) is encoded with a single presence byte: byte
1 followed by the 32 key bytes when present (33 bytes), the single byte
0 with no further bytes when absent; decoding reads a 1-byte tag back in
the same shape. -/
theorem c2_optional_key_single_byte_tag :
    (∀ (k : Pubkey) (buf : List Nat), pack_pubkey_optioin (some k) buf = buf ++ 1 :: k)
    ∧ (∀ buf : List Nat, pack_pubkey_optioin none buf = buf ++ [0])
    ∧ (∀ r : List Nat, unpack_pubkey_option (0 :: r) = .ok (none, r))
    ∧ (∀ (k r : List Nat), k.length = 32 →
        unpack_pubkey_option (1 :: (k ++ r)) = .ok (some k, r)) :=
  ⟨fun _ _ => rfl, fun _ => rfl, unpack_pubkey_option_none, unpack_pubkey_option_some⟩

/-- Witness for C2 amended, decoding a present key of 32 bytes followed
by one trailing byte. -/
theorem c2_optional_key_single_byte_tag_witness :
    unpack_pubkey_option (1 :: (List.replicate 32 4 ++ [7])) =
      .ok (some (List.replicate 32 4), [7]) :=
  c2_optional_key_single_byte_tag.2.2.2 (List.replicate 32 4) [7] (by decide)

theorem unpack_pack_coption_key (v : Option Pubkey) (region : List Nat)
    (h : ∀ k, v = some k → k.length = 32) :
    unpack_coption_key (pack_coption_key v region) = .ok v := by
  cases v with
  | none => rfl
  | some k =>
    have hk : k.length = 32 := h k rfl
    have h4 : (([1, 0, 0, 0] : List Nat) ++ k).take 4 = [1, 0, 0, 0] := rfl
    have hd : (([1, 0, 0, 0] : List Nat) ++ k).drop 4 = k := rfl
    simp [unpack_coption_key, pack_coption_key, h4, hd,
      List.take_of_length_le (le_of_eq hk)]

theorem pack_coption_key_length (v : Option Pubkey) (region : List Nat)
    (h : ∀ k, v = some k → k.length = 32) (hr : region.length = 36) :
    (pack_coption_key v region).length = 36 := by
  cases v with
  | none => simp [pack_coption_key, List.length_drop, hr]
  | some k => simp [pack_coption_key, h k rfl]

theorem mint_pack_unpack (m : Mint) (dst : List Nat)
    (hwf : m.wf = true) (hdst : dst.length = 82) :
    Mint.unpack_from_slice ((Mint.pack_into_slice m dst).getD []) = some (.ok m) := by
  obtain ⟨ma, supply, decimals, is_init, fa⟩ := m
  simp only [Mint.wf, Bool.and_eq_true, decide_eq_true_eq] at hwf
  obtain ⟨⟨⟨hma, hsup⟩, hdec⟩, hfa⟩ := hwf
  have hmaL : ∀ k, ma = some k → k.length = 32 := by
    intro k hk
    rw [hk] at hma
    simp only [pubkeyWf, Bool.and_eq_true, beq_iff_eq] at hma
    exact hma.1
  have hfaL : ∀ k, fa = some k → k.length = 32 := by
    intro k hk
    rw [hk] at hfa
    simp only [pubkeyWf, Bool.and_eq_true, beq_iff_eq] at hfa
    exact hfa.1
  have hdrop82 : dst.drop 82 = [] := List.drop_eq_nil_of_le (le_of_eq hdst)
  unfold Mint.pack_into_slice
  rw [if_neg (by omega), Option.getD_some, hdrop82, List.append_nil]
  simp only [List.append_assoc]
  generalize hA : pack_coption_key ma (List.take 36 dst) = A
  generalize hB : natToLeBytes 8 supply = B
  generalize hE : pack_coption_key fa (List.take 36 (List.drop 46 dst)) = E
  have hALen : A.length = 36 := by
    rw [← hA]
    exact pack_coption_key_length ma _ hmaL (by simp [List.length_take, hdst])
  have hBLen : B.length = 8 := by rw [← hB]; exact natToLeBytes_length 8 supply
  have hELen : E.length = 36 := by
    rw [← hE]
    exact pack_coption_key_length fa _ hfaL
      (by simp [List.length_take, List.length_drop, hdst])
  have hsB : natFromLeBytes B = supply := by
    rw [← hB, natFromLeBytes_natToLeBytes]
    exact Nat.mod_eq_of_lt (by norm_num at hsup ⊢; omega)
  have hpLen : (A ++ (B ++ ([decimals] ++ ([if is_init then 1 else 0] ++ E)))).length = 82 := by
    simp [List.length_append, hALen, hBLen, hELen]
  unfold Mint.unpack_from_slice
  rw [if_neg (by omega)]
  have hs : (A ++ (B ++ ([decimals] ++ ([if is_init then 1 else 0] ++ E)))).take 82
      = A ++ (B ++ ([decimals] ++ ([if is_init then 1 else 0] ++ E))) :=
    List.take_of_length_le (by omega)
  have t36 : (A ++ (B ++ ([decimals] ++ ([if is_init then 1 else 0] ++ E)))).take 36 = A :=
    List.take_left' hALen
  have d36 : (A ++ (B ++ ([decimals] ++ ([if is_init then 1 else 0] ++ E)))).drop 36
      = B ++ ([decimals] ++ ([if is_init then 1 else 0] ++ E)) := List.drop_left' hALen
  have d44 : (A ++ (B ++ ([decimals] ++ ([if is_init then 1 else 0] ++ E)))).drop 44
      = [decimals] ++ ([if is_init then 1 else 0] ++ E) := by
    rw [show (44 : Nat) = 36 + 8 from rfl, ← List.drop_drop, d36]
    exact List.drop_left' hBLen
  have d45 : (A ++ (B ++ ([decimals] ++ ([if is_init then 1 else 0] ++ E)))).drop 45
      = [if is_init then 1 else 0] ++ E := by
    rw [show (45 : Nat) = 44 + 1 from rfl, ← List.drop_drop, d44]
    exact List.drop_left' rfl
  have d46 : (A ++ (B ++ ([decimals] ++ ([if is_init then 1 else 0] ++ E)))).drop 46
      = E := by
    rw [show (46 : Nat) = 45 + 1 from rfl, ← List.drop_drop, d45]
    exact List.drop_left' rfl
  have t8 : (B ++ ([decimals] ++ ([if is_init then 1 else 0] ++ E))).take 8 = B :=
    List.take_left' hBLen
  have t1a : (([decimals] : List Nat) ++ ([if is_init then 1 else 0] ++ E)).take 1
      = [decimals] := List.take_left' rfl
  have t1b : (([if is_init then 1 else 0] : List Nat) ++ E).take 1
      = [if is_init then 1 else 0] := List.take_left' rfl
  have t36E : E.take 36 = E := List.take_of_length_le (le_of_eq hELen)
  have uA : unpack_coption_key A = .ok ma := by
    rw [← hA]; exact unpack_pack_coption_key ma _ hmaL
  have uE : unpack_coption_key E = .ok fa := by
    rw [← hE]; exact unpack_pack_coption_key fa _ hfaL
  simp only [hs, t36, d36, d44, d45, d46, t8, t1a, t1b, t36E, uA, uE, hsB,
    except_bind_ok, List.headD]
  cases is_init <;> rfl

/-- C3: evaluation of the optional-amount codec at the encoder's own
output.  The encoder writes the 4-byte little-endian presence tag then
the 8 little-endian amount bytes, but the decoder splits the 12-byte
region as an 8-byte tag followed by a 4-byte big-endian body, so it
rejects every buffer the encoder produces: the round-trip claim fails on
the code as written. -/
theorem c3_coption_u64_decode_rejects_encoder_output :
    pack_coption_u64 (some 1) (List.replicate 12 0) = [1, 0, 0, 0, 1, 0, 0, 0, 0, 0, 0, 0]
    ∧ unpack_coption_u64 (pack_coption_u64 (some 1) (List.replicate 12 0))
        = .error .invalidAccountData
    ∧ unpack_coption_u64 (pack_coption_u64 none (List.replicate 12 0))
        = .error .invalidAccountData
    ∧ (∀ (v : Option Nat) (dst : List Nat), dst.length = 12 →
        exceptIsError (unpack_coption_u64 (pack_coption_u64 v dst)) = true) := by
  refine ⟨by decide, by decide, by decide, ?_⟩
  intro v dst hdst
  have hlen : (pack_coption_u64 v dst).length = 12 := by
    cases v with
    | none => simp [pack_coption_u64, List.length_drop, hdst]
    | some a => simp [pack_coption_u64, natToLeBytes_length]
  have htag : ((pack_coption_u64 v dst).take 8).length = 8 := by
    simp [List.length_take, hlen]
  unfold unpack_coption_u64
  rw [if_neg, if_neg]
  · rfl
  · intro hc; rw [hc] at htag; simp at htag
  · intro hc; rw [hc] at htag; simp at htag

/-- Witness for C3 at the present amount 1 over a zeroed region. -/
theorem c3_coption_u64_decode_rejects_encoder_output_witness :
    exceptIsError (unpack_coption_u64 (pack_coption_u64 (some 1) (List.replicate 12 0)))
      = true :=
  c3_coption_u64_decode_rejects_encoder_output.2.2.2 (some 1) (List.replicate 12 0)
    (by decide)

set_option maxRecDepth 8192 in
/-- C4: the Mint codec round-trips (decoding the bytes packed from any
well-formed Mint over any 82-byte destination returns that Mint), but
the Account codec does not: decoding the bytes packed from a concrete
Account fails with InvalidAccountData, because the is_native field
decoder unpack_coption_u64 rejects every buffer its encoder writes. -/
theorem c4_record_roundtrip :
    (∀ (m : Mint) (dst : List Nat), m.wf = true → dst.length = 82 →
      Mint.unpack_from_slice ((Mint.pack_into_slice m dst).getD []) = some (.ok m))
    ∧ Account.unpack_from_slice
        ((Account.pack_pack_into_slice
          ⟨List.replicate 32 1, List.replicate 32 2, 7, none, .inited, some 3, 0, none⟩
          (List.replicate 165 0)).getD [])
        = some (.error .invalidAccountData) :=
  ⟨mint_pack_unpack, by decide⟩

/-- Witness for C4 at a concrete Mint with a present mint authority. -/
theorem c4_record_roundtrip_witness :
    Mint.unpack_from_slice ((Mint.pack_into_slice
        ⟨some (List.replicate 32 7), 12345, 9, true, none⟩
        (List.replicate 82 0)).getD [])
      = some (.ok ⟨some (List.replicate 32 7), 12345, 9, true, none⟩) :=
  c4_record_roundtrip.1 ⟨some (List.replicate 32 7), 12345, 9, true, none⟩
    (List.replicate 82 0) (by decide) (by decide)

/-- C5 counterexample: on buffers one byte short of the fixed record
length, the record decoders produce no result at all (the leading
array_ref of the source panics, modelled as none), rather than returning
a length error to the caller. -/
theorem c5_short_buffer_counterexample :
    Mint.unpack_from_slice (List.replicate 81 0) = none
    ∧ Account.unpack_from_slice (List.replicate 164 0) = none := by
  decide

/-- C5 amended: for every input shorter than the fixed record length (82
bytes for Mint, 165 for Account), unpack_from_slice panics in the
leading array_ref rather than returning an error; the length-checked
error path belongs to the external Pack::unpack wrapper, which is not
part of this repository. -/
theorem c5_short_buffer_panics :
    (∀ src : List Nat, src.length < 82 → Mint.unpack_from_slice src = none)
    ∧ (∀ src : List Nat, src.length < 165 → Account.unpack_from_slice src = none) := by
  constructor
  · intro src h
    unfold Mint.unpack_from_slice
    rw [if_pos h]
  · intro src h
    unfold Account.unpack_from_slice
    rw [if_pos h]

/-- Witness for C5 amended at the empty buffer. -/
theorem c5_short_buffer_panics_witness :
    Mint.unpack_from_slice [] = none ∧ Account.unpack_from_slice [] = none :=
  ⟨c5_short_buffer_panics.1 [] (by decide), c5_short_buffer_panics.2 [] (by decide)⟩

/-- C8: the frozen predicate is correct (is_frozen holds exactly when
the state field is Frozen), but the native predicate is not a function
of the is_native field: the source method calls itself unconditionally,
so under every recursion budget it produces no result at all. -/
theorem c8_frozen_correct_native_diverges :
    (∀ a : Account, a.is_frozen = true ↔ a.state = AccountState.frozen)
    ∧ (∀ (a : Account) (fuel : Nat), a.is_native_fuel fuel = none) := by
  constructor
  · intro a
    simp [Account.is_frozen]
  · intro a fuel
    induction fuel with
    | zero => rfl
    | succ n ih => simpa [Account.is_native_fuel] using ih

/-- C9: is_valid_signer_index holds exactly on the inclusive range from
MIN_SIGNERS to MAX_SIGNERS, and the initialize_multisig builder returns
an error whenever the threshold m is outside that range, the signer-list
length is outside that range, or m exceeds the number of signers. -/
theorem c9_signer_validation :
    (∀ n : Nat, is_valid_signer_index n = true ↔ (MIN_SIGNERS ≤ n ∧ n ≤ MAX_SIGNERS))
    ∧ (∀ (tpid msig : Pubkey) (signers : List Pubkey) (m : Nat),
        (¬(MIN_SIGNERS ≤ m ∧ m ≤ MAX_SIGNERS)
          ∨ ¬(MIN_SIGNERS ≤ signers.length ∧ signers.length ≤ MAX_SIGNERS)
          ∨ m > signers.length) →
        exceptIsError (init_multisig tpid msig signers m) = true) := by
  constructor
  · intro n
    simp [is_valid_signer_index]
  · intro tpid msig signers m h
    have hc : (!is_valid_signer_index m || !is_valid_signer_index signers.length
        || decide (m > signers.length)) = true := by
      rcases h with h | h | h
      · have hv : is_valid_signer_index m = false := by
          simp [is_valid_signer_index, MIN_SIGNERS, MAX_SIGNERS] at h ⊢
          omega
        simp [hv]
      · have hv : is_valid_signer_index signers.length = false := by
          simp [is_valid_signer_index, MIN_SIGNERS, MAX_SIGNERS] at h ⊢
          omega
        simp [hv]
      · simp [h]
    by_cases hp : tpid = TOKEN_PROGRAM_ID
    · unfold init_multisig check_program_account
      rw [if_pos hp]
      simp only [except_bind_ok, hc]
      rfl
    · unfold init_multisig check_program_account
      rw [if_neg hp]
      rfl

/-- Witness for C9: threshold 0 with a single supplied signer is
rejected. -/
theorem c9_signer_validation_witness :
    exceptIsError (init_multisig TOKEN_PROGRAM_ID (List.replicate 32 9)
      [List.replicate 32 9] 0) = true :=
  c9_signer_validation.2 TOKEN_PROGRAM_ID (List.replicate 32 9)
    [List.replicate 32 9] 0 (Or.inl (by decide))
